import Mathlib

/-!
# Verification of the data-stream size/ingestion analyzer

Shallow embedding of `src/data-stream-per-day.py` and proofs of the claims
about it.  Python floats are modelled as exact rationals (`Rat`); machine
time is modelled as rational seconds since the Unix epoch; every network
call made by the script is modelled as a field of an environment record,
with `Except.error ()` standing for a raised Python exception and `.ok`
for a response that was received (its HTTP status code is part of the
response value).  Strings are Lean strings; the ASCII-oriented pieces of
`str.lower`, `str.strip` and the regex character classes `\d`, `[a-z]`
are embedded at the character-code level.
-/

/-! ## Configuration constants (lines 10-12 of the source) -/

def MAX_WORKERS : Nat := 5

def MAX_RETRIES : Nat := 2

def RETRY_SLEEP : Nat := 1

/-! ## `parse_size` (lines 15-36)

`parse_size(size_str)` lowercases and strips the string, returns 0 for the
empty string, for `"0b"` and for strings the regex `([\d\.]+)([a-z]+)` does
not match, converts the matched magnitude with Python's `float` (which
raises `ValueError` when the magnitude is not a well-formed number) and
multiplies by the 1024-based unit multiplier, defaulting to 0 for an
unrecognized unit.  The embedding returns `Except Unit Rat`, `.error ()`
standing for a raised exception. -/

/-- Value of a list of ASCII digit characters read in base 10. -/
def digitsToNat (l : List Char) : Nat :=
  l.foldl (fun a c => 10 * a + (c.toNat - 48)) 0

/-- Embedding of `str.lower` on one character (ASCII range; the inputs the
script feeds the function are ASCII). -/
def pyLowerChar (c : Char) : Char :=
  if 65 ≤ c.toNat ∧ c.toNat ≤ 90 then Char.ofNat (c.toNat + 32) else c

/-- The whitespace characters removed by Python `str.strip`(ASCII range). -/
def pySpace (c : Char) : Bool :=
  decide (c.toNat = 32 ∨ c.toNat = 9 ∨ c.toNat = 10 ∨ c.toNat = 13 ∨
          c.toNat = 11 ∨ c.toNat = 12)

/-- Embedding of `str.strip`. -/
def pyStrip (l : List Char) : List Char :=
  ((l.dropWhile pySpace).reverse.dropWhile pySpace).reverse

/-- The regex class `\d` (ASCII digits). -/
def isDigitChar (c : Char) : Bool :=
  decide (48 ≤ c.toNat ∧ c.toNat ≤ 57)

/-- The regex class `[\d\.]`. -/
def isDigitOrDot (c : Char) : Bool :=
  isDigitChar c || c == '.'

/-- The regex class `[a-z]`. -/
def isAsciiLower (c : Char) : Bool :=
  decide (97 ≤ c.toNat ∧ c.toNat ≤ 122)

/-- Exact value of a magnitude string made of digits and at most one dot,
as Python's `float` would produce it (idealized to an exact rational). -/
def magValue (l : List Char) : Rat :=
  let ip := l.takeWhile (fun c => c != '.')
  let fp := (l.dropWhile (fun c => c != '.')).drop 1
  (digitsToNat ip : Rat) + (digitsToNat fp : Rat) / (10 : Rat) ^ fp.length

/-- Embedding of Python `float()` applied to a string of digits and dots
(the only shape the regex can hand it): it succeeds exactly when the
string has at most one dot and at least one digit, else raises. -/
def pyFloat (l : List Char) : Option Rat :=
  if (l.count '.' ≤ 1 ∧ l.any isDigitChar) then some (magValue l) else none

/-- The `units` dictionary lookup `units.get(unit, 0)` (lines 29-36). -/
def unitMultiplier (u : List Char) : Rat :=
  if u = ['b'] then 1
  else if u = ['k', 'b'] then 1024
  else if u = ['m', 'b'] then 1024 ^ 2
  else if u = ['g', 'b'] then 1024 ^ 3
  else if u = ['t', 'b'] then 1024 ^ 4
  else 0

/-- Embedding of `parse_size` (lines 15-36).  `.error ()` models the
`ValueError` raised by `float()` on a malformed magnitude. -/
def parse_size (size_str : String) : Except Unit Rat :=
  if size_str.data = [] then .ok 0
  else
    let l := pyStrip (size_str.data.map pyLowerChar)
    if l = ['0', 'b'] then .ok 0
    else
      let mag := l.takeWhile isDigitOrDot
      let unit := (l.dropWhile isDigitOrDot).takeWhile isAsciiLower
      if mag = [] ∨ unit = [] then .ok 0
      else
        match pyFloat mag with
        | none => .error ()
        | some v => .ok (v * unitMultiplier unit)

/-! ## `safe_parse_ts` (lines 39-46)

`safe_parse_ts(ts)` replaces every `"Z"` with `"+00:00"`, feeds the result
to `datetime.fromisoformat`, returns `None` when that raises or when the
year lies outside `[1970, 2100]`, else the parsed instant.  The embedding
returns the instant as rational seconds since the Unix epoch.  It covers
the canonical `YYYY-MM-DD[THH:MM:SS[.digits]][+00:00]` shapes (the ones the
upstream service emits); other shapes are treated as unparseable. -/

/-- Leap-year test of the Gregorian calendar. -/
def isLeapYear (y : Nat) : Bool :=
  y % 4 == 0 && (y % 100 != 0 || y % 400 == 0)

/-- Number of days in a month. -/
def daysInMonth (y m : Nat) : Nat :=
  if m = 2 then (if isLeapYear y then 29 else 28)
  else if m = 4 ∨ m = 6 ∨ m = 9 ∨ m = 11 then 30
  else 31

/-- Number of leap years `z` with `z ≤ n`. -/
def leapsUpTo (n : Nat) : Nat :=
  n / 4 - n / 100 + n / 400

/-- Days from 1970-01-01 to the start of year `y` (for `y ≥ 1970`). -/
def daysBeforeYear (y : Nat) : Nat :=
  365 * (y - 1970) + (leapsUpTo (y - 1) - leapsUpTo 1969)

/-- Days from the start of year `y` to the start of month `m`. -/
def daysBeforeMonth (y m : Nat) : Nat :=
  (List.range' 1 (m - 1)).foldl (fun a k => a + daysInMonth y k) 0

/-- Read exactly `k` ASCII digits from the front of `l`. -/
def readFixedNat (k : Nat) (l : List Char) : Option (Nat × List Char) :=
  let pre := l.take k
  if pre.length = k ∧ pre.all isDigitChar then some (digitsToNat pre, l.drop k)
  else none

/-- Require character `c` at the front of `l`. -/
def expectChar (c : Char) (l : List Char) : Option (List Char) :=
  match l with
  | x :: xs => if x = c then some xs else none
  | [] => none

/-- Validate calendar fields and produce rational epoch seconds; the year
window `[1970, 2100]` check of `safe_parse_ts` is folded in (outside the
window the source returns `None` either way). -/
def epochSecondsOf (y mo d h mi s : Nat) (frac : Rat) : Option Rat :=
  if 1970 ≤ y ∧ y ≤ 2100 ∧ 1 ≤ mo ∧ mo ≤ 12 ∧ 1 ≤ d ∧ d ≤ daysInMonth y mo ∧
     h ≤ 23 ∧ mi ≤ 59 ∧ s ≤ 59 then
    some ((((daysBeforeYear y + daysBeforeMonth y mo + (d - 1)) * 86400
            + h * 3600 + mi * 60 + s : Nat) : Rat) + frac)
  else none

/-- Parse the optional trailing UTC offset (`+00:00` or nothing). -/
def parseUtcOffset (l : List Char) : Option Unit :=
  if l = [] ∨ l = ['+', '0', '0', ':', '0', '0'] then some () else none

/-- Parse `HH:MM:SS[.digits]` followed by the optional offset. -/
def parseTimePart (y mo d : Nat) (l : List Char) : Option Rat := do
  let (h, l) ← readFixedNat 2 l
  let l ← expectChar ':' l
  let (mi, l) ← readFixedNat 2 l
  let l ← expectChar ':' l
  let (s, l) ← readFixedNat 2 l
  match l with
  | '.' :: rest =>
    let ds := rest.takeWhile isDigitChar
    if ds.length = 0 ∨ 6 < ds.length then none
    else do
      let _ ← parseUtcOffset (rest.drop ds.length)
      epochSecondsOf y mo d h mi s ((digitsToNat ds : Rat) / (10 : Rat) ^ ds.length)
  | _ => do
    let _ ← parseUtcOffset l
    epochSecondsOf y mo d h mi s 0

/-- Embedding of `datetime.fromisoformat` (canonical shapes) combined with
the year-window check: rational epoch seconds, or `none`. -/
def parseIso (l : List Char) : Option Rat := do
  let (y, l) ← readFixedNat 4 l
  let l ← expectChar '-' l
  let (mo, l) ← readFixedNat 2 l
  let l ← expectChar '-' l
  let (d, l) ← readFixedNat 2 l
  match l with
  | [] => epochSecondsOf y mo d 0 0 0 0
  | 'T' :: rest => parseTimePart y mo d rest
  | _ => none

/-- Embedding of `safe_parse_ts` (lines 39-46): `ts.replace("Z", "+00:00")`
then `fromisoformat` with the `[1970, 2100]` year window. -/
def safe_parse_ts (ts : String) : Option Rat :=
  parseIso (ts.data.flatMap (fun c => if c = 'Z' then ['+', '0', '0', ':', '0', '0'] else [c]))

/-! ## `classify_status` (lines 49-54) -/

/-- Embedding of `classify_status`. -/
def classify_status (age_days last_seen_days : Rat) : String :=
  if last_seen_days > 3 then "STAGNANT"
  else if age_days < 2 then "NEW/SHORT"
  else "ACTIVE"

/-! ## Network environment

`process_data_stream` (lines 76-158) performs, per attempt, these calls in
order: the time-range search, a clock read `datetime.now`, the
data-stream metadata listing, and per backing index a `_cat/indices` size
lookup, a HEAD probe for `partial-restored-<idx>` and, when the probe
answers 200, a size lookup for the restored index.  The environment
records every possible answer, indexed by the attempt number (attempt 1
is the first try); `.error ()` models a raised exception (network error,
timeout, or a JSON body that fails to decode where the source would
decode it), `.ok` a received response. -/

/-- Time-range search response: HTTP status plus the two
`value_as_string` fields (empty string models an absent aggregation
value, exactly what `aggs.get(...).get("value_as_string", "")` yields). -/
structure SearchResp where
  status : Nat
  oldest : String
  newest : String
  deriving DecidableEq, Repr

/-- `_cat/indices` response: HTTP status plus the decoded JSON body, one
entry per row holding the row's optional `"dataset.size"` field. -/
structure SizeResp where
  status : Nat
  body : List (Option String)
  deriving DecidableEq, Repr

/-- All answers the upstream service and the clock give while one stream
is analyzed; every field is indexed by the attempt number. -/
structure StreamEnv where
  search : Nat → Except Unit SearchResp
  now : Nat → Rat
  meta : Nat → Except Unit (List String)
  sizeFor : Nat → String → Except Unit SizeResp
  headFor : Nat → String → Except Unit Nat

/-- The record built at line 143-150 of the source (one per successfully
analyzed stream). -/
structure StreamResult where
  ds : String
  status : String
  size_gb : Rat
  age_days : Rat
  last_seen_days : Rat
  ingest_rate : Rat
  deriving DecidableEq, Repr

/-! ## Per-unit size resolution (lines 118-135) -/

/-- One `_cat/indices/<name>` size lookup (lines 119-125 resp. 129-135):
contributes the parsed size when the status is 200 and the body is a
non-empty list, else 0; a raised exception (including one raised by
`parse_size` itself) propagates. -/
def catSizeBytes (env : StreamEnv) (a : Nat) (name : String) : Except Unit Rat :=
  match env.sizeFor a name with
  | .error _ => .error ()
  | .ok resp =>
    if resp.status = 200 then
      match resp.body with
      | [] => .ok 0
      | entry :: _ => parse_size (entry.getD "0b")
    else .ok 0

/-- Shadow-unit contribution (lines 127-135): HEAD-probe
`partial-restored-<idx>`; when it answers 200 the restored index's size is
looked up, else the contribution is 0. -/
def shadowBytes (env : StreamEnv) (a : Nat) (idx : String) : Except Unit Rat :=
  match env.headFor a ("partial-restored-" ++ idx) with
  | .error _ => .error ()
  | .ok hstat =>
    if hstat = 200 then catSizeBytes env a ("partial-restored-" ++ idx)
    else .ok 0

/-- Total contribution of one backing index: its own size plus its
shadow-unit size (one iteration of the loop at lines 118-135). -/
def unitContribution (env : StreamEnv) (a : Nat) (idx : String) : Except Unit Rat :=
  match catSizeBytes env a idx with
  | .error _ => .error ()
  | .ok b =>
    match shadowBytes env a idx with
    | .error _ => .error ()
    | .ok s => .ok (b + s)

/-- The `total_bytes` accumulation over all backing indices
(lines 116-135). -/
def sumContributions (env : StreamEnv) (a : Nat) : List String → Except Unit Rat
  | [] => .ok 0
  | idx :: rest =>
    match unitContribution env a idx with
    | .error _ => .error ()
    | .ok c =>
      match sumContributions env a rest with
      | .error _ => .error ()
      | .ok s => .ok (c + s)

/-- Fold a per-index fetch over a list of indices, summing the byte
counts; used to state that `total_bytes` splits into the plain-unit part
and the shadow-unit part. -/
def sumSizes (f : String → Except Unit Rat) : List String → Except Unit Rat
  | [] => .ok 0
  | x :: xs =>
    match f x, sumSizes f xs with
    | .ok v, .ok s => .ok (v + s)
    | _, _ => .error ()

/-! ## One attempt of `process_data_stream` (the `try` body, lines 81-150) -/

/-- The body of one attempt: `.error ()` models an exception reaching the
`except` clause at line 152, `.ok none` a `return None` (skip), and
`.ok (some r)` a returned result record. -/
def attemptBody (env : StreamEnv) (ds : String) (a : Nat) :
    Except Unit (Option StreamResult) :=
  match env.search a with
  | .error _ => .error ()
  | .ok resp =>
    if resp.status ≠ 200 then .ok none
    else
      match safe_parse_ts resp.oldest, safe_parse_ts resp.newest with
      | some o, some n =>
        if (n - o) / 86400 ≤ 0 then .ok none
        else
          match env.meta a with
          | .error _ => .error ()
          | .ok indices =>
            match sumContributions env a indices with
            | .error _ => .error ()
            | .ok total =>
              if total = 0 then .ok none
              else
                .ok (some
                  { ds := ds
                    status := classify_status ((n - o) / 86400) ((env.now a - n) / 86400)
                    size_gb := total / 1024 ^ 3
                    age_days := (n - o) / 86400
                    last_seen_days := (env.now a - n) / 86400
                    ingest_rate := total / 1024 ^ 3 / ((n - o) / 86400) })
      | _, _ => .ok none

/-- The retry loop (lines 80, 152-156): on an exception at attempt
`a ≤ MAX_RETRIES` the next attempt runs, else `None` is returned. -/
def processGo (env : StreamEnv) (ds : String) : List Nat → Option StreamResult
  | [] => none
  | a :: rest =>
    match attemptBody env ds a with
    | .ok res => res
    | .error _ => if a ≤ MAX_RETRIES then processGo env ds rest else none

/-- Embedding of `process_data_stream` (lines 76-158): attempts
`1, ..., MAX_RETRIES + 1` as in `range(1, MAX_RETRIES + 2)`. -/
def process_data_stream (env : StreamEnv) (ds : String) : Option StreamResult :=
  processGo env ds (List.range' 1 (MAX_RETRIES + 1))

/-! ## `main` (lines 162-248) -/

/-- The run-level environment: the discovery call `get_data_streams`
(lines 70-73; `raise_for_status` makes any failure an exception, modelled
`.error ()`), and each stream's own network environment. -/
structure RunEnv where
  streams : Except Unit (List String)
  perStream : String → StreamEnv

/-- Results collected from the worker pool (lines 175-195): one
`process_data_stream` outcome per discovered stream, skips dropped. -/
def gatherResults (env : RunEnv) (names : List String) : List StreamResult :=
  names.filterMap (fun ds => process_data_stream (env.perStream ds) ds)

/-- The sort key relation of line 198 (`key=ingest_rate, reverse=True`):
descending ingestion rate. -/
def rateGE (a b : StreamResult) : Prop :=
  b.ingest_rate ≤ a.ingest_rate

instance : DecidableRel rateGE := fun a b => by
  unfold rateGE; infer_instance

instance : IsTotal StreamResult rateGE :=
  ⟨fun a b => le_total b.ingest_rate a.ingest_rate⟩

instance : IsTrans StreamResult rateGE :=
  ⟨fun _ _ _ h1 h2 => le_trans h2 h1⟩

/-- The summary accumulation loop (lines 226-232): running pair of
`total_size` and `active_ingest`; only rows with status `"ACTIVE"`
contribute to the second component. -/
def summarize (rs : List StreamResult) : Rat × Rat :=
  rs.foldl
    (fun acc r =>
      (acc.1 + r.size_gb, if r.status == "ACTIVE" then acc.2 + r.ingest_rate else acc.2))
    (0, 0)

/-- What `main` prints at the end (lines 246-248). -/
structure Report where
  results : List StreamResult
  total_size : Rat
  active_ingest : Rat
  count : Nat
  deriving DecidableEq, Repr

/-- Embedding of `main` (lines 162-248): discovery, fan-out, sort by
descending ingestion rate (line 198, a stable sort), removal of STAGNANT
rows (line 201), and the summary totals.  A discovery failure propagates
(fatal); the completion order of the worker pool does not influence any
field below (the sort, the filter and the sums are order-insensitive), so
the fan-out is modelled in discovery order. -/
def mainRun (env : RunEnv) : Except Unit Report :=
  match env.streams with
  | .error _ => .error ()
  | .ok names =>
    let results :=
      (List.insertionSort rateGE (gatherResults env names)).filter
        (fun r => r.status != "STAGNANT")
    .ok { results := results
          total_size := (summarize results).1
          active_ingest := (summarize results).2
          count := results.length }

/-! ## Concrete environments

Used by witnesses and counterexamples.  Timestamps used below:
`2024-01-01T00:00:00Z` is epoch second 1704067200, `2024-01-02...` is
1704153600, `2024-01-05...` is 1704412800. -/

/-- A stream environment in which every network call raises on every
attempt. -/
def throwingEnv : StreamEnv where
  search := fun _ => .error ()
  now := fun _ => 0
  meta := fun _ => .error ()
  sizeFor := fun _ _ => .error ()
  headFor := fun _ _ => .error ()

/-- Stream `s1` of the happy run: age 4 days, last write half a day ago,
one backing index of 2gb with a 1gb partial-restored shadow. -/
def sEnv1 : StreamEnv where
  search := fun _ => .ok ⟨200, "2024-01-01T00:00:00Z", "2024-01-05T00:00:00Z"⟩
  now := fun _ => 1704456000
  meta := fun _ => .ok ["i1"]
  sizeFor := fun _ name =>
    if name = "i1" then .ok ⟨200, [some "2gb"]⟩
    else if name = "partial-restored-i1" then .ok ⟨200, [some "1gb"]⟩
    else .ok ⟨404, []⟩
  headFor := fun _ name => if name = "partial-restored-i1" then .ok 200 else .ok 404

/-- Stream `s2` of the happy run: age 1 day (NEW/SHORT), 1gb. -/
def sEnv2 : StreamEnv where
  search := fun _ => .ok ⟨200, "2024-01-01T00:00:00Z", "2024-01-02T00:00:00Z"⟩
  now := fun _ => 1704196800
  meta := fun _ => .ok ["i2"]
  sizeFor := fun _ name => if name = "i2" then .ok ⟨200, [some "1gb"]⟩ else .ok ⟨404, []⟩
  headFor := fun _ _ => .ok 404

/-- Stream `s3` of the happy run: age 4 days, last write 10 days ago
(STAGNANT), 8gb. -/
def sEnv3 : StreamEnv where
  search := fun _ => .ok ⟨200, "2024-01-01T00:00:00Z", "2024-01-05T00:00:00Z"⟩
  now := fun _ => 1705276800
  meta := fun _ => .ok ["i3"]
  sizeFor := fun _ name => if name = "i3" then .ok ⟨200, [some "8gb"]⟩ else .ok ⟨404, []⟩
  headFor := fun _ _ => .ok 404

/-- A happy run: three streams, one ACTIVE, one NEW/SHORT, one
STAGNANT. -/
def wEnv : RunEnv where
  streams := .ok ["s1", "s2", "s3"]
  perStream := fun ds =>
    if ds = "s1" then sEnv1 else if ds = "s2" then sEnv2
    else if ds = "s3" then sEnv3 else throwingEnv

/-- Like `sEnv1` but the per-unit size lookup raises on every attempt
(and there is no shadow unit). -/
def unitSizeRaisesEnv : StreamEnv where
  search := fun _ => .ok ⟨200, "2024-01-01T00:00:00Z", "2024-01-05T00:00:00Z"⟩
  now := fun _ => 1704456000
  meta := fun _ => .ok ["u1"]
  sizeFor := fun _ _ => .error ()
  headFor := fun _ _ => .ok 404

/-- Two backing indices; the size lookup for `u1` answers HTTP 500 (no
exception), the one for `u2` answers 2gb. -/
def unitSizeHttpFailEnv : StreamEnv where
  search := fun _ => .ok ⟨200, "2024-01-01T00:00:00Z", "2024-01-05T00:00:00Z"⟩
  now := fun _ => 1704456000
  meta := fun _ => .ok ["u1", "u2"]
  sizeFor := fun _ name => if name = "u2" then .ok ⟨200, [some "2gb"]⟩ else .ok ⟨500, []⟩
  headFor := fun _ _ => .ok 404

/-- The shared time-range answer of the two clock-comparison streams:
identical oldest and newest instants. -/
def clockSearch : Nat → Except Unit SearchResp :=
  fun _ => .ok ⟨200, "2024-01-01T00:00:00Z", "2024-01-05T00:00:00Z"⟩

/-- Clock-comparison stream 1: its analysis samples the clock half a day
after the newest write. -/
def clockEnv1 : StreamEnv where
  search := clockSearch
  now := fun _ => 1704456000
  meta := fun _ => .ok ["i1"]
  sizeFor := fun _ name => if name = "i1" then .ok ⟨200, [some "1gb"]⟩ else .ok ⟨404, []⟩
  headFor := fun _ _ => .ok 404

/-- Clock-comparison stream 2: identical except its analysis samples the
clock a full day after the newest write. -/
def clockEnv2 : StreamEnv where
  search := clockSearch
  now := fun _ => 1704499200
  meta := fun _ => .ok ["i1"]
  sizeFor := fun _ name => if name = "i1" then .ok ⟨200, [some "1gb"]⟩ else .ok ⟨404, []⟩
  headFor := fun _ _ => .ok 404

/-- A run over the two clock-comparison streams. -/
def clockRunEnv : RunEnv where
  streams := .ok ["s1", "s2"]
  perStream := fun ds => if ds = "s1" then clockEnv1 else clockEnv2

/-- A run whose only stream is NEW/SHORT with ingestion rate 1 GB/day. -/
def newShortRunEnv : RunEnv where
  streams := .ok ["sn"]
  perStream := fun _ => sEnv2

/-- A stream environment whose time-range query always answers HTTP 500. -/
def searchFailsEnv : StreamEnv where
  search := fun _ => .ok ⟨500, "", ""⟩
  now := fun _ => 0
  meta := fun _ => .ok []
  sizeFor := fun _ _ => .ok ⟨404, []⟩
  headFor := fun _ _ => .ok 404

/-- The result record `sEnv1` produces. -/
def sRes1 : StreamResult :=
  { ds := "s1", status := "ACTIVE", size_gb := 3, age_days := 4,
    last_seen_days := 1/2, ingest_rate := 3/4 }

/-- The result record `sEnv2` produces (under the name "s2"). -/
def sRes2 : StreamResult :=
  { ds := "s2", status := "NEW/SHORT", size_gb := 1, age_days := 1,
    last_seen_days := 1/2, ingest_rate := 1 }

/-- The report of the happy run `wEnv`: the NEW/SHORT stream ranks first
(rate 1 over 3/4), the STAGNANT one is filtered out, and only the ACTIVE
stream's rate enters `active_ingest`. -/
def wReport : Report :=
  { results := [sRes2, sRes1], total_size := 4, active_ingest := 3/4, count := 2 }

/-- The result record `clockEnv1` produces. -/
def cRes1 : StreamResult :=
  { ds := "s1", status := "ACTIVE", size_gb := 1, age_days := 4,
    last_seen_days := 1/2, ingest_rate := 1/4 }

/-! ## Helper lemmas -/

theorem magValue_nonneg (l : List Char) : 0 ≤ magValue l := by
  unfold magValue
  have h1 : (0 : Rat) ≤ (digitsToNat (l.takeWhile (fun c => c != '.')) : Rat) := by
    exact_mod_cast Nat.zero_le _
  have h2 : (0 : Rat) ≤ (digitsToNat ((l.dropWhile (fun c => c != '.')).drop 1) : Rat) := by
    exact_mod_cast Nat.zero_le _
  have h3 : (0 : Rat) < (10 : Rat) ^ ((l.dropWhile (fun c => c != '.')).drop 1).length := by
    positivity
  have := div_nonneg h2 (le_of_lt h3)
  linarith

theorem unitMultiplier_nonneg (u : List Char) : 0 ≤ unitMultiplier u := by
  unfold unitMultiplier
  split <;> try norm_num
  split <;> try norm_num
  split <;> try norm_num
  split <;> try norm_num
  split <;> norm_num

theorem parse_size_ok_nonneg {s : String} {r : Rat} (h : parse_size s = .ok r) :
    0 ≤ r := by
  simp only [parse_size] at h
  split at h
  · cases h; exact le_refl 0
  · split at h
    · cases h; exact le_refl 0
    · split at h
      · cases h; exact le_refl 0
      · split at h
        · exact absurd h (by simp)
        · rename_i mag heq
          cases h
          have hv : ∃ m, pyFloat m = some mag ∧ mag = magValue m := by
            refine ⟨_, heq, ?_⟩
            unfold pyFloat at heq
            split at heq
            · exact (Option.some.inj heq).symm
            · exact absurd heq (by simp)
          obtain ⟨m, _, hm⟩ := hv
          subst hm
          exact mul_nonneg (magValue_nonneg m) (unitMultiplier_nonneg _)

theorem catSizeBytes_ok_nonneg {env : StreamEnv} {a : Nat} {name : String} {r : Rat}
    (h : catSizeBytes env a name = .ok r) : 0 ≤ r := by
  unfold catSizeBytes at h
  split at h
  · exact absurd h (by simp)
  · split at h
    · split at h
      · cases h; exact le_refl 0
      · exact parse_size_ok_nonneg h
    · cases h; exact le_refl 0

theorem shadowBytes_ok_nonneg {env : StreamEnv} {a : Nat} {idx : String} {r : Rat}
    (h : shadowBytes env a idx = .ok r) : 0 ≤ r := by
  unfold shadowBytes at h
  split at h
  · exact absurd h (by simp)
  · split at h
    · exact catSizeBytes_ok_nonneg h
    · cases h; exact le_refl 0

theorem unitContribution_ok_nonneg {env : StreamEnv} {a : Nat} {idx : String} {r : Rat}
    (h : unitContribution env a idx = .ok r) : 0 ≤ r := by
  cases hb : catSizeBytes env a idx with
  | error e => simp [unitContribution, hb] at h
  | ok b =>
    cases hs : shadowBytes env a idx with
    | error e => simp [unitContribution, hb, hs] at h
    | ok s =>
      simp [unitContribution, hb, hs] at h
      rw [← h]
      exact add_nonneg (catSizeBytes_ok_nonneg hb) (shadowBytes_ok_nonneg hs)

theorem sumContributions_ok_nonneg {env : StreamEnv} {a : Nat} :
    ∀ {l : List String} {t : Rat}, sumContributions env a l = .ok t → 0 ≤ t := by
  intro l
  induction l with
  | nil => intro t h; cases h; exact le_refl 0
  | cons idx rest ih =>
    intro t h
    cases hc : unitContribution env a idx with
    | error e => simp [sumContributions, hc] at h
    | ok c =>
      cases hs : sumContributions env a rest with
      | error e => simp [sumContributions, hc, hs] at h
      | ok s =>
        simp [sumContributions, hc, hs] at h
        rw [← h]
        exact add_nonneg (unitContribution_ok_nonneg hc) (ih hs)

theorem sumContributions_split {env : StreamEnv} {a : Nat} :
    ∀ {l : List String} {t : Rat}, sumContributions env a l = .ok t →
      ∃ ub sb, sumSizes (catSizeBytes env a) l = .ok ub ∧
        sumSizes (shadowBytes env a) l = .ok sb ∧ t = ub + sb := by
  intro l
  induction l with
  | nil =>
    intro t h
    cases h
    exact ⟨0, 0, rfl, rfl, by norm_num⟩
  | cons idx rest ih =>
    intro t h
    cases hc : unitContribution env a idx with
    | error e => simp [sumContributions, hc] at h
    | ok c =>
      cases hs : sumContributions env a rest with
      | error e => simp [sumContributions, hc, hs] at h
      | ok s =>
        simp [sumContributions, hc, hs] at h
        obtain ⟨ub, sb, hub, hsb, hsum⟩ := ih hs
        cases hb : catSizeBytes env a idx with
        | error e => simp [unitContribution, hb] at hc
        | ok b =>
          cases hsh : shadowBytes env a idx with
          | error e => simp [unitContribution, hb, hsh] at hc
          | ok sh =>
            simp [unitContribution, hb, hsh] at hc
            refine ⟨b + ub, sh + sb, ?_, ?_, ?_⟩
            · unfold sumSizes; rw [hb, hub]
            · unfold sumSizes; rw [hsh, hsb]
            · rw [← h, ← hc, hsum]; ring

theorem processGo_some {env : StreamEnv} {ds : String} :
    ∀ {l : List Nat} {r : StreamResult}, processGo env ds l = some r →
      ∃ a ∈ l, attemptBody env ds a = .ok (some r) := by
  intro l
  induction l with
  | nil => intro r h; exact absurd h (by simp [processGo])
  | cons a rest ih =>
    intro r h
    unfold processGo at h
    split at h
    · rename_i res hres
      exact ⟨a, by simp, by rw [hres, h]⟩
    · split at h
      · obtain ⟨a', ha', hb⟩ := ih h
        exact ⟨a', by simp [ha'], hb⟩
      · exact absurd h (by simp)

theorem attemptBody_some_inv {env : StreamEnv} {ds : String} {a : Nat} {r : StreamResult}
    (h : attemptBody env ds a = .ok (some r)) :
    ∃ resp o n indices total,
      env.search a = .ok resp ∧ resp.status = 200 ∧
      safe_parse_ts resp.oldest = some o ∧ safe_parse_ts resp.newest = some n ∧
      ¬ (n - o) / 86400 ≤ 0 ∧
      env.meta a = .ok indices ∧
      sumContributions env a indices = .ok total ∧ total ≠ 0 ∧
      r = { ds := ds
            status := classify_status ((n - o) / 86400) ((env.now a - n) / 86400)
            size_gb := total / 1024 ^ 3
            age_days := (n - o) / 86400
            last_seen_days := (env.now a - n) / 86400
            ingest_rate := total / 1024 ^ 3 / ((n - o) / 86400) } := by
  cases hsr : env.search a with
  | error e => simp [attemptBody, hsr] at h
  | ok resp =>
    by_cases hst : resp.status = 200
    · cases ho : safe_parse_ts resp.oldest with
      | none => simp [attemptBody, hsr, hst, ho] at h
      | some o =>
        cases hn : safe_parse_ts resp.newest with
        | none => simp [attemptBody, hsr, hst, ho, hn] at h
        | some n =>
          by_cases hage : (n - o) / 86400 ≤ 0
          · simp [attemptBody, hsr, hst, ho, hn, hage] at h
          · cases hm : env.meta a with
            | error e => simp [attemptBody, hsr, hst, ho, hn, hage, hm] at h
            | ok indices =>
              cases htot : sumContributions env a indices with
              | error e => simp [attemptBody, hsr, hst, ho, hn, hage, hm, htot] at h
              | ok total =>
                by_cases hz : total = 0
                · simp [attemptBody, hsr, hst, ho, hn, hage, hm, htot, hz] at h
                · simp [attemptBody, hsr, hst, ho, hn, hage, hm, htot, hz] at h
                  exact ⟨resp, o, n, indices, total, rfl, hst, ho, hn, hage, rfl, htot, hz,
                    h.symm⟩
    · simp [attemptBody, hsr, hst] at h

theorem process_some_inv {env : StreamEnv} {ds : String} {r : StreamResult}
    (h : process_data_stream env ds = some r) :
    ∃ a, a ∈ List.range' 1 (MAX_RETRIES + 1) ∧ attemptBody env ds a = .ok (some r) := by
  obtain ⟨a, ha, hb⟩ := processGo_some h
  exact ⟨a, ha, hb⟩

theorem summarize_go (rs : List StreamResult) :
    ∀ p : Rat × Rat,
      rs.foldl
        (fun acc r =>
          (acc.1 + r.size_gb, if r.status == "ACTIVE" then acc.2 + r.ingest_rate else acc.2))
        p =
      (p.1 + (rs.map (fun r => r.size_gb)).sum,
       p.2 + ((rs.filter (fun r => r.status == "ACTIVE")).map (fun r => r.ingest_rate)).sum) := by
  induction rs with
  | nil => intro p; simp
  | cons r rest ih =>
    intro p
    by_cases hr : r.status = "ACTIVE"
    · simp only [List.foldl_cons, ih, List.map_cons, List.sum_cons, List.filter_cons, hr]
      simp [hr]
      constructor <;> ring
    · simp only [List.foldl_cons, ih, List.map_cons, List.sum_cons, List.filter_cons]
      simp [hr]
      ring

theorem summarize_eq (rs : List StreamResult) :
    summarize rs =
      ((rs.map (fun r => r.size_gb)).sum,
       ((rs.filter (fun r => r.status == "ACTIVE")).map (fun r => r.ingest_rate)).sum) := by
  unfold summarize
  rw [summarize_go]
  simp

theorem mainRun_ok_inv {env : RunEnv} {rep : Report}
    (h : mainRun env = .ok rep) :
    ∃ names, env.streams = .ok names ∧
      rep.results =
        (List.insertionSort rateGE (gatherResults env names)).filter
          (fun r => r.status != "STAGNANT") ∧
      rep.total_size = (summarize rep.results).1 ∧
      rep.active_ingest = (summarize rep.results).2 ∧
      rep.count = rep.results.length := by
  cases hs : env.streams with
  | error e => simp [mainRun, hs] at h
  | ok names =>
    simp [mainRun, hs] at h
    exact ⟨names, rfl, by rw [← h], by rw [← h], by rw [← h], by rw [← h]⟩

theorem mem_results_of_mainRun {env : RunEnv} {rep : Report} {r : StreamResult}
    (h : mainRun env = .ok rep) (hr : r ∈ rep.results) :
    ∃ ds, process_data_stream (env.perStream ds) ds = some r := by
  obtain ⟨names, _, hres, _⟩ := mainRun_ok_inv h
  rw [hres] at hr
  have h1 : r ∈ List.insertionSort rateGE (gatherResults env names) :=
    List.mem_of_mem_filter hr
  have h2 : r ∈ gatherResults env names := (List.mem_insertionSort rateGE).mp h1
  obtain ⟨ds, _, hds⟩ := List.mem_filterMap.mp h2
  exact ⟨ds, hds⟩

/-! ## Claims -/

/-- C1: for every stream that produces a result record, the reported total
size equals the sum of the sizes fetched for each backing unit plus the
sizes of any existing shadow (partial-restored) units, and the reported
ingestion rate equals that total size divided by `age_days` (proved for
every result, hence in particular for every non-stagnant one). -/
theorem size_is_unit_and_shadow_sum_and_rate_is_size_div_age
    (env : StreamEnv) (ds : String) (r : StreamResult)
    (h : process_data_stream env ds = some r) :
    ∃ a indices unitTotal shadowTotal,
      env.meta a = .ok indices ∧
      sumSizes (catSizeBytes env a) indices = .ok unitTotal ∧
      sumSizes (shadowBytes env a) indices = .ok shadowTotal ∧
      r.size_gb * 1024 ^ 3 = unitTotal + shadowTotal ∧
      r.ingest_rate = r.size_gb / r.age_days := by
  obtain ⟨a, _, hb⟩ := process_some_inv h
  obtain ⟨resp, o, n, indices, total, hsr, hst, ho, hn, hage, hm, htot, hz, hr⟩ :=
    attemptBody_some_inv hb
  obtain ⟨ub, sb, hub, hsb, hsum⟩ := sumContributions_split htot
  subst hr
  refine ⟨a, indices, ub, sb, hm, hub, hsb, ?_, rfl⟩
  show total / 1024 ^ 3 * 1024 ^ 3 = ub + sb
  rw [div_mul_cancel₀]
  · exact hsum
  · norm_num

/-- Witness for C1: the stream of `sEnv1` (one 2gb backing unit plus a 1gb
partial-restored shadow, age 4 days). -/
theorem size_is_unit_and_shadow_sum_witness :
    process_data_stream sEnv1 "s1" = some sRes1 ∧
    ∃ a indices unitTotal shadowTotal,
      sEnv1.meta a = .ok indices ∧
      sumSizes (catSizeBytes sEnv1 a) indices = .ok unitTotal ∧
      sumSizes (shadowBytes sEnv1 a) indices = .ok shadowTotal ∧
      sRes1.size_gb * 1024 ^ 3 = unitTotal + shadowTotal ∧
      sRes1.ingest_rate = sRes1.size_gb / sRes1.age_days :=
  ⟨by with_unfolding_all rfl,
   size_is_unit_and_shadow_sum_and_rate_is_size_div_age sEnv1 "s1" sRes1
     (by with_unfolding_all rfl)⟩

/-- C2: in the final result list, any entry appearing before another has an
ingestion rate at least as large (sorted by rate, descending); all entries
of the final list are non-stagnant, so this holds in particular for any
two non-stagnant results. -/
theorem final_results_sorted_by_rate_desc (env : RunEnv) (rep : Report)
    (h : mainRun env = .ok rep) :
    rep.results.Pairwise (fun x y => y.ingest_rate ≤ x.ingest_rate) := by
  obtain ⟨names, _, hres, _⟩ := mainRun_ok_inv h
  rw [hres]
  have hs : (List.insertionSort rateGE (gatherResults env names)).Pairwise rateGE :=
    List.sorted_insertionSort rateGE _
  exact List.Pairwise.sublist (List.filter_sublist _) hs

/-- Witness for C2 at the happy run `wEnv`. -/
theorem final_results_sorted_witness :
    mainRun wEnv = .ok wReport ∧
    wReport.results.Pairwise (fun x y => y.ingest_rate ≤ x.ingest_rate) :=
  ⟨by with_unfolding_all rfl,
   final_results_sorted_by_rate_desc wEnv wReport (by with_unfolding_all rfl)⟩

/-- C3: a nonpositive computed age skips the attempt (`return None`), a
nonpositive resolved total size likewise (the source tests `total == 0`
and a resolved total is never negative), and every stream appearing in
the final result set has strictly positive age and size: a stream with
`age_days ≤ 0` or total resolved size `≤ 0` never appears there. -/
theorem nonpositive_age_or_size_never_reported :
    (∀ (env : StreamEnv) (ds : String) (a : Nat) resp o n,
      env.search a = .ok resp → resp.status = 200 →
      safe_parse_ts resp.oldest = some o → safe_parse_ts resp.newest = some n →
      (n - o) / 86400 ≤ 0 → attemptBody env ds a = .ok none) ∧
    (∀ (env : StreamEnv) (ds : String) (a : Nat) resp o n indices total,
      env.search a = .ok resp → resp.status = 200 →
      safe_parse_ts resp.oldest = some o → safe_parse_ts resp.newest = some n →
      env.meta a = .ok indices → sumContributions env a indices = .ok total →
      total ≤ 0 → attemptBody env ds a = .ok none) ∧
    (∀ (env : RunEnv) (rep : Report) (r : StreamResult),
      mainRun env = .ok rep → r ∈ rep.results → 0 < r.age_days ∧ 0 < r.size_gb) := by
  refine ⟨?_, ?_, ?_⟩
  · intro env ds a resp o n hsr hst ho hn hage
    simp [attemptBody, hsr, hst, ho, hn, hage]
  · intro env ds a resp o n indices total hsr hst ho hn hm htot hle
    have hz : total = 0 := le_antisymm hle (sumContributions_ok_nonneg htot)
    by_cases hage : (n - o) / 86400 ≤ 0
    · simp [attemptBody, hsr, hst, ho, hn, hage]
    · simp [attemptBody, hsr, hst, ho, hn, hage, hm, htot, hz]
  · intro env rep r hmain hr
    obtain ⟨ds, hp⟩ := mem_results_of_mainRun hmain hr
    obtain ⟨a, _, hb⟩ := process_some_inv hp
    obtain ⟨resp, o, n, indices, total, _, _, _, _, hage, _, htot, hz, hre⟩ :=
      attemptBody_some_inv hb
    have htotpos : 0 < total :=
      lt_of_le_of_ne (sumContributions_ok_nonneg htot) (Ne.symm hz)
    subst hre
    constructor
    · show 0 < (n - o) / 86400
      exact lt_of_not_le hage
    · show 0 < total / 1024 ^ 3
      positivity

/-- C4: every error inside one stream's analysis is absorbed locally — an
environment whose every call raises on every attempt still yields only a
skip — the run proceeds over all discovered streams whatever the
per-stream environments do, and the run as a whole fails exactly when the
initial stream-discovery call fails. -/
theorem per_stream_errors_absorbed_only_discovery_fatal :
    (∀ ds, process_data_stream throwingEnv ds = none) ∧
    (∀ (env : RunEnv) names, env.streams = .ok names →
      mainRun env =
        .ok { results :=
                (List.insertionSort rateGE (gatherResults env names)).filter
                  (fun r => r.status != "STAGNANT")
              total_size :=
                (summarize ((List.insertionSort rateGE (gatherResults env names)).filter
                  (fun r => r.status != "STAGNANT"))).1
              active_ingest :=
                (summarize ((List.insertionSort rateGE (gatherResults env names)).filter
                  (fun r => r.status != "STAGNANT"))).2
              count :=
                ((List.insertionSort rateGE (gatherResults env names)).filter
                  (fun r => r.status != "STAGNANT")).length }) ∧
    (∀ env : RunEnv, env.streams = .error () → mainRun env = .error ()) := by
  refine ⟨?_, ?_, ?_⟩
  · intro ds; rfl
  · intro env names h
    simp [mainRun, h]
  · intro env h
    simp [mainRun, h]

/-- C5 counterexample: in `unitSizeRaisesEnv` the time range resolves
(age 4 days) and the backing-index listing succeeds, but the one per-unit
size lookup raises on every attempt; after the retries are exhausted the
whole stream's analysis is skipped — the unit does not degrade to a 0-byte
contribution as claimed. -/
theorem unit_size_exception_skips_whole_stream :
    process_data_stream unitSizeRaisesEnv "s" = none := by
  with_unfolding_all rfl

/-- C5 (amended): a per-unit size lookup that completes with a non-success
HTTP status contributes 0 bytes for that unit without aborting the
stream's analysis — shown generally, and concretely at
`unitSizeHttpFailEnv`, whose unit `u1` answers 500 and contributes nothing
while `u2` contributes 2gb and the stream is still reported; a size lookup
that raises, however, is retried as part of the whole stream's analysis,
and exhausting those retries skips the entire stream. -/
theorem unit_size_http_failure_contributes_zero :
    (∀ (env : StreamEnv) (a : Nat) (idx : String) resp,
      env.sizeFor a idx = .ok resp → resp.status ≠ 200 →
      catSizeBytes env a idx = .ok 0) ∧
    process_data_stream unitSizeHttpFailEnv "s" =
      some { ds := "s", status := "ACTIVE", size_gb := 2, age_days := 4,
             last_seen_days := 1/2, ingest_rate := 1/2 } := by
  constructor
  · intro env a idx resp h hs
    simp [catSizeBytes, h, hs]
  · with_unfolding_all rfl

/-- C6 counterexample: `clockRunEnv` runs two streams whose time-range
calls are one and the same function (identical newest instants), yet the
two produced results carry different `last_seen_days` (1/2 versus 1):
each stream's analysis read its own clock, so no single per-run reference
"now" underlies the reported values. -/
theorem clock_sampled_per_stream_not_per_run :
    (clockRunEnv.perStream "s1").search = (clockRunEnv.perStream "s2").search ∧
    (mainRun clockRunEnv).map
        (fun rep => rep.results.map (fun r => (r.ds, r.last_seen_days))) =
      .ok [("s1", 1/2), ("s2", 1)] ∧
    ((1 : Rat) / 2) ≠ 1 := by
  refine ⟨by with_unfolding_all rfl, by with_unfolding_all rfl, by norm_num⟩

/-- C6 (amended): each result's `age_days` and `last_seen_days` are
computed from a clock instant sampled within that stream's own analysis
attempt (`datetime.now` runs inside `process_data_stream`, line 102), not
from a run-wide snapshot; results of different streams may rest on
different reference instants. -/
theorem now_sampled_inside_stream_analysis
    (env : StreamEnv) (ds : String) (r : StreamResult)
    (h : process_data_stream env ds = some r) :
    ∃ a resp o n, a ∈ List.range' 1 (MAX_RETRIES + 1) ∧
      env.search a = .ok resp ∧
      safe_parse_ts resp.oldest = some o ∧ safe_parse_ts resp.newest = some n ∧
      r.age_days = (n - o) / 86400 ∧
      r.last_seen_days = (env.now a - n) / 86400 := by
  obtain ⟨a, ha, hb⟩ := process_some_inv h
  obtain ⟨resp, o, n, indices, total, hsr, hst, ho, hn, hage, hm, htot, hz, hre⟩ :=
    attemptBody_some_inv hb
  subst hre
  exact ⟨a, resp, o, n, ha, hsr, ho, hn, rfl, rfl⟩

/-- Witness for the amended C6 at `clockEnv1`. -/
theorem now_sampled_inside_stream_analysis_witness :
    process_data_stream clockEnv1 "s1" = some cRes1 ∧
    ∃ a resp o n, a ∈ List.range' 1 (MAX_RETRIES + 1) ∧
      clockEnv1.search a = .ok resp ∧
      safe_parse_ts resp.oldest = some o ∧ safe_parse_ts resp.newest = some n ∧
      cRes1.age_days = (n - o) / 86400 ∧
      cRes1.last_seen_days = (clockEnv1.now a - n) / 86400 :=
  ⟨by with_unfolding_all rfl,
   now_sampled_inside_stream_analysis clockEnv1 "s1" cRes1 (by with_unfolding_all rfl)⟩

/-- C7 counterexample: the run `newShortRunEnv` reports one non-stagnant
entry, a NEW/SHORT stream with ingestion rate 1, yet the summary's total
ingestion-rate figure is 0 — NEW/SHORT entries are not included in it,
only ACTIVE ones are (line 231 of the source). -/
theorem ingest_total_excludes_new_short :
    (mainRun newShortRunEnv).map
        (fun rep =>
          (rep.active_ingest,
           (rep.results.map (fun r => r.ingest_rate)).sum,
           rep.results.map (fun r => r.status))) =
      .ok (0, 1, ["NEW/SHORT"]) ∧
    (0 : Rat) ≠ 1 := by
  exact ⟨by with_unfolding_all rfl, by norm_num⟩

/-- C7 (amended): the summary's total-size figure equals the sum of sizes
over the filtered (non-stagnant) result set and the reported count is its
length, but the total ingestion-rate figure equals the sum of rates over
the entries with status ACTIVE only: NEW/SHORT entries are excluded from
the ingestion total. -/
theorem summary_totals (env : RunEnv) (rep : Report)
    (h : mainRun env = .ok rep) :
    rep.total_size = (rep.results.map (fun r => r.size_gb)).sum ∧
    rep.active_ingest =
      ((rep.results.filter (fun r => r.status == "ACTIVE")).map
        (fun r => r.ingest_rate)).sum ∧
    rep.count = rep.results.length := by
  obtain ⟨names, _, _, ht, ha, hc⟩ := mainRun_ok_inv h
  rw [ht, ha, summarize_eq]
  exact ⟨rfl, rfl, hc⟩

/-- Witness for the amended C7 at the happy run `wEnv`. -/
theorem summary_totals_witness :
    mainRun wEnv = .ok wReport ∧
    (wReport.total_size = (wReport.results.map (fun r => r.size_gb)).sum ∧
     wReport.active_ingest =
       ((wReport.results.filter (fun r => r.status == "ACTIVE")).map
         (fun r => r.ingest_rate)).sum ∧
     wReport.count = wReport.results.length) :=
  ⟨by with_unfolding_all rfl,
   summary_totals wEnv wReport (by with_unfolding_all rfl)⟩

/-- C8 counterexample: in `searchFailsEnv` the time-range query answers
HTTP 500 on every attempt, so the time range cannot be determined; the
stream yields no result record at all (`None`) — in particular it is not
classified with any status, and no record with status "EMPTY_UNKNOWN"
exists. -/
theorem undetermined_range_yields_no_record :
    process_data_stream searchFailsEnv "sx" = none ∧
    ¬ ∃ r, process_data_stream searchFailsEnv "sx" = some r ∧
        r.status = "EMPTY_UNKNOWN" := by
  have h : process_data_stream searchFailsEnv "sx" = none := by with_unfolding_all rfl
  refine ⟨h, ?_⟩
  rintro ⟨r, hr, _⟩
  rw [h] at hr
  cases hr

/-- C8 (amended): a stream whose time range cannot be determined — the
query answers with a non-200 status, or an aggregation value is missing
or unparseable — is skipped outright (the attempt returns `None`, so the
stream never enters the ranking at all), and no EMPTY_UNKNOWN status
exists: every produced record's status is STAGNANT, NEW/SHORT or
ACTIVE. -/
theorem undetermined_time_range_skips :
    (∀ (env : StreamEnv) (ds : String) (a : Nat) resp,
      env.search a = .ok resp → resp.status ≠ 200 →
      attemptBody env ds a = .ok none) ∧
    (∀ (env : StreamEnv) (ds : String) (a : Nat) resp,
      env.search a = .ok resp → safe_parse_ts resp.oldest = none →
      attemptBody env ds a = .ok none) ∧
    (∀ (env : StreamEnv) (ds : String) (a : Nat) resp,
      env.search a = .ok resp → safe_parse_ts resp.newest = none →
      attemptBody env ds a = .ok none) ∧
    (∀ (env : StreamEnv) (ds : String) (r : StreamResult),
      process_data_stream env ds = some r →
      r.status = "STAGNANT" ∨ r.status = "NEW/SHORT" ∨ r.status = "ACTIVE") := by
  refine ⟨?_, ?_, ?_, ?_⟩
  · intro env ds a resp hsr hst
    simp [attemptBody, hsr, hst]
  · intro env ds a resp hsr ho
    by_cases hst : resp.status = 200
    · simp [attemptBody, hsr, hst, ho]
    · simp [attemptBody, hsr, hst]
  · intro env ds a resp hsr hn
    by_cases hst : resp.status = 200
    · cases ho : safe_parse_ts resp.oldest <;> simp [attemptBody, hsr, hst, ho, hn]
    · simp [attemptBody, hsr, hst]
  · intro env ds r h
    obtain ⟨a, _, hb⟩ := process_some_inv h
    obtain ⟨resp, o, n, indices, total, _, _, _, _, _, _, _, _, hre⟩ :=
      attemptBody_some_inv hb
    subst hre
    show classify_status _ _ = _ ∨ classify_status _ _ = _ ∨ classify_status _ _ = _
    unfold classify_status
    split_ifs <;> simp

theorem digitOrDot_cases {c : Char} (h : isDigitOrDot c = true) :
    (48 ≤ c.toNat ∧ c.toNat ≤ 57) ∨ c = '.' := by
  unfold isDigitOrDot at h
  simp at h
  rcases h with hd | hdot
  · exact Or.inl (by simpa [isDigitChar] using hd)
  · exact Or.inr hdot

theorem pyLowerChar_eq_self_of_digitOrDot {c : Char} (h : isDigitOrDot c = true) :
    pyLowerChar c = c := by
  unfold pyLowerChar
  rw [if_neg]
  rintro ⟨h65, h90⟩
  rcases digitOrDot_cases h with hd | hdot
  · omega
  · subst hdot
    exact absurd h65 (by decide)

theorem pyLowerChar_eq_self_of_lower {c : Char} (h : isAsciiLower c = true) :
    pyLowerChar c = c := by
  unfold pyLowerChar
  rw [if_neg]
  rintro ⟨h65, h90⟩
  have := of_decide_eq_true (by simpa [isAsciiLower] using h)
  omega

theorem pySpace_false_of_digitOrDot {c : Char} (h : isDigitOrDot c = true) :
    pySpace c = false := by
  unfold pySpace
  apply decide_eq_false
  rcases digitOrDot_cases h with hd | hdot
  · omega
  · subst hdot
    decide

theorem pySpace_false_of_lower {c : Char} (h : isAsciiLower c = true) :
    pySpace c = false := by
  unfold pySpace
  apply decide_eq_false
  have := of_decide_eq_true (by simpa [isAsciiLower] using h)
  omega

theorem isDigitOrDot_false_of_lower {c : Char} (h : isAsciiLower c = true) :
    isDigitOrDot c = false := by
  have hc := of_decide_eq_true (by simpa [isAsciiLower] using h)
  unfold isDigitOrDot isDigitChar
  apply Bool.or_eq_false_iff.mpr
  constructor
  · apply decide_eq_false; omega
  · apply beq_eq_false_iff_ne.mpr
    rintro rfl
    exact absurd hc (by decide)

theorem map_pyLowerChar_eq_self {l : List Char} (h : ∀ c ∈ l, pyLowerChar c = c) :
    l.map pyLowerChar = l := by
  induction l with
  | nil => rfl
  | cons a t ih =>
    simp only [List.map_cons, h a (by simp)]
    rw [ih (fun c hc => h c (by simp [hc]))]

theorem dropWhile_eq_self_of_all_false {p : Char → Bool} {l : List Char}
    (h : ∀ c ∈ l, p c = false) : l.dropWhile p = l := by
  cases l with
  | nil => rfl
  | cons a t => simp [List.dropWhile_cons, h a (by simp)]

theorem pyStrip_eq_self {l : List Char} (h : ∀ c ∈ l, pySpace c = false) :
    pyStrip l = l := by
  unfold pyStrip
  rw [dropWhile_eq_self_of_all_false h,
      dropWhile_eq_self_of_all_false (fun c hc => h c (List.mem_reverse.mp hc)),
      List.reverse_reverse]

theorem takeWhile_dropWhile_append {p : Char → Bool} :
    ∀ (m u : List Char), (∀ c ∈ m, p c = true) →
      (∀ c, u.head? = some c → p c = false) →
      (m ++ u).takeWhile p = m ∧ (m ++ u).dropWhile p = u := by
  intro m
  induction m with
  | nil =>
    intro u _ hu
    cases u with
    | nil => exact ⟨rfl, rfl⟩
    | cons a t =>
      have ha := hu a rfl
      constructor <;> simp [List.takeWhile_cons, List.dropWhile_cons, ha]
  | cons a t ih =>
    intro u hm hu
    have ha := hm a (by simp)
    obtain ⟨h1, h2⟩ := ih u (fun c hc => hm c (by simp [hc])) hu
    constructor <;>
      simp [List.takeWhile_cons, List.dropWhile_cons, ha, h1, h2]

theorem takeWhile_eq_self_of_all {p : Char → Bool} {u : List Char}
    (h : ∀ c ∈ u, p c = true) : u.takeWhile p = u := by
  induction u with
  | nil => rfl
  | cons a t ih =>
    simp only [List.takeWhile_cons, h a (by simp), if_true]
    rw [ih (fun c hc => h c (by simp [hc]))]

theorem append_eq_pair {m w : List Char} {x y : Char} (hm : m ≠ []) (hw : w ≠ [])
    (h : m ++ w = [x, y]) : m = [x] ∧ w = [y] := by
  cases m with
  | nil => exact absurd rfl hm
  | cons a t =>
    simp only [List.cons_append, List.cons.injEq] at h
    obtain ⟨rfl, h2⟩ := h
    cases t with
    | nil => simp at h2; exact ⟨rfl, h2⟩
    | cons b s =>
      simp only [List.cons_append, List.cons.injEq] at h2
      obtain ⟨rfl, h3⟩ := h2
      exact absurd (List.append_eq_nil.mp h3).2 hw

theorem parse_size_split (m w : List Char)
    (hm1 : ∀ c ∈ m, isDigitOrDot c = true)
    (hm2 : m.count '.' ≤ 1) (hm3 : m.any isDigitChar = true)
    (hw1 : w ≠ []) (hw2 : ∀ c ∈ w, isAsciiLower c = true) :
    parse_size ⟨m ++ w⟩ = .ok (magValue m * unitMultiplier w) := by
  have hmne : m ≠ [] := by rintro rfl; simp at hm3
  have hfix : ∀ c ∈ m ++ w, pyLowerChar c = c := by
    intro c hc
    rcases List.mem_append.mp hc with h | h
    · exact pyLowerChar_eq_self_of_digitOrDot (hm1 c h)
    · exact pyLowerChar_eq_self_of_lower (hw2 c h)
  have hspace : ∀ c ∈ m ++ w, pySpace c = false := by
    intro c hc
    rcases List.mem_append.mp hc with h | h
    · exact pySpace_false_of_digitOrDot (hm1 c h)
    · exact pySpace_false_of_lower (hw2 c h)
  have hl : pyStrip ((String.mk (m ++ w)).data.map pyLowerChar) = m ++ w := by
    rw [show (String.mk (m ++ w)).data = m ++ w from rfl,
        map_pyLowerChar_eq_self hfix, pyStrip_eq_self hspace]
  have hbound : ∀ c, w.head? = some c → isDigitOrDot c = false := by
    intro c hc
    exact isDigitOrDot_false_of_lower (hw2 c (by cases w with
      | nil => cases hc
      | cons a t => cases hc; simp))
  obtain ⟨htake, hdrop⟩ := takeWhile_dropWhile_append m w hm1 hbound
  simp only [parse_size, hl]
  rw [if_neg (by simp [hmne])]
  by_cases h0 : m ++ w = ['0', 'b']
  · rw [if_pos h0]
    obtain ⟨hm0, hwb⟩ := append_eq_pair hmne hw1 h0
    subst hm0; subst hwb
    with_unfolding_all rfl
  · rw [if_neg h0, htake, hdrop, takeWhile_eq_self_of_all hw2,
        if_neg (by rw [not_or]; exact ⟨hmne, hw1⟩)]
    unfold pyFloat
    rw [if_pos ⟨hm2, hm3⟩]

/-- C9: for every size string `<number><unit>` — a magnitude of digits
with at most one dot and at least one digit, followed by a unit among
b, kb, mb, gb, tb — `parse_size` returns the number times 1024 raised to
the unit's index; and `parse_size` of the empty string, of "0b", and of a
number followed by any unrecognized (lowercase alphabetic) unit returns
0. -/
theorem parse_size_number_times_unit_multiplier (m : List Char) (u : String) (i : Nat)
    (hm1 : ∀ c ∈ m, isDigitOrDot c = true)
    (hm2 : m.count '.' ≤ 1) (hm3 : m.any isDigitChar = true)
    (hu : (u, i) ∈ [("b", 0), ("kb", 1), ("mb", 2), ("gb", 3), ("tb", 4)]) :
    parse_size ⟨m ++ u.data⟩ = .ok (magValue m * 1024 ^ i) ∧
    parse_size "" = .ok 0 ∧
    parse_size "0b" = .ok 0 ∧
    ∀ v : String, v.data ≠ [] → (∀ c ∈ v.data, isAsciiLower c = true) →
      v ∉ ["b", "kb", "mb", "gb", "tb"] →
      parse_size ⟨m ++ v.data⟩ = .ok 0 := by
  refine ⟨?_, by with_unfolding_all rfl, by with_unfolding_all rfl, ?_⟩
  · simp only [List.mem_cons, List.not_mem_nil, or_false, Prod.mk.injEq] at hu
    rcases hu with ⟨rfl, rfl⟩ | ⟨rfl, rfl⟩ | ⟨rfl, rfl⟩ | ⟨rfl, rfl⟩ | ⟨rfl, rfl⟩ <;>
      (rw [parse_size_split m _ hm1 hm2 hm3 (by decide) (by decide)]
       with_unfolding_all rfl)
  · intro v hv1 hv2 hv3
    rw [parse_size_split m v.data hm1 hm2 hm3 hv1 hv2]
    have hmul : unitMultiplier v.data = 0 := by
      have hne : ∀ t : String, t ∈ ["b", "kb", "mb", "gb", "tb"] → v.data ≠ t.data := by
        intro t ht he
        exact hv3 (by rw [show v = t from String.ext he]; exact ht)
      unfold unitMultiplier
      rw [if_neg (hne "b" (by simp)), if_neg (hne "kb" (by simp)),
          if_neg (hne "mb" (by simp)), if_neg (hne "gb" (by simp)),
          if_neg (hne "tb" (by simp))]
    rw [hmul, mul_zero]

/-- Witness for C9 at the concrete size string "1.5kb" (and the
unrecognized unit "xq"). -/
theorem parse_size_number_times_unit_multiplier_witness :
    parse_size ⟨['1', '.', '5'] ++ "kb".data⟩ =
        .ok (magValue ['1', '.', '5'] * 1024 ^ 1) ∧
    parse_size "" = .ok 0 ∧
    parse_size "0b" = .ok 0 ∧
    ∀ v : String, v.data ≠ [] → (∀ c ∈ v.data, isAsciiLower c = true) →
      v ∉ ["b", "kb", "mb", "gb", "tb"] →
      parse_size ⟨['1', '.', '5'] ++ v.data⟩ = .ok 0 :=
  parse_size_number_times_unit_multiplier ['1', '.', '5'] "kb" 1
    (by decide) (by decide) (by decide) (by decide)

/-- C10 counterexample: `parse_size "1.2.3gb"` does not return a value at
all — the regex matches the magnitude "1.2.3", and `float("1.2.3")`
raises `ValueError` (modelled `.error ()`), so `parse_size` can raise. -/
theorem parse_size_raises_on_malformed_magnitude :
    parse_size "1.2.3gb" = .error () := by with_unfolding_all rfl

/-- C10 (amended): whenever `parse_size` returns normally its value is a
non-negative number; it does not, however, return on every input: a
magnitude matched by the regex that is not a well-formed number, such as
the one in "1.2.3gb", makes the `float()` call raise. -/
theorem parse_size_result_nonneg (s : String) (r : Rat)
    (h : parse_size s = .ok r) : 0 ≤ r :=
  parse_size_ok_nonneg h

/-- Witness for the amended C10 at "2gb". -/
theorem parse_size_result_nonneg_witness :
    parse_size "2gb" = .ok (2 * 1024 ^ 3) ∧ (0 : Rat) ≤ 2 * 1024 ^ 3 :=
  ⟨by with_unfolding_all rfl,
   parse_size_result_nonneg "2gb" (2 * 1024 ^ 3) (by with_unfolding_all rfl)⟩
